import Mathlib

/-!
Verification of the cluster_plug CPU hotplug driver (CyanogenMod
android_kernel_motorola_msm8916).

The repository carries three revisions of the driver:
  * `arch/arm/hotplug/cluster_plug.c` — the voting variant; its
    `plug_clusters` forces the little cluster active after an `-EPERM`
    refusal from `cpu_up`.
  * an earlier hysteresis variant (here suffixed `_000`);
  * a hysteresis + suspend variant (here suffixed `_001`) whose
    `plug_clusters` records the refusal but does not force the little
    cluster, and whose work function only plugs both clusters when at
    most four CPUs are online.

We embed the decision/executor logic shallowly: CPUs are `Fin 8`
(CPUs 0–3 big, 4–7 little on MSM8939), the online mask is a function
`Fin 8 → Bool`, `cpu_up`/`cpu_down` requests become events, and the
refusal behaviour of the lifecycle provider (`cpu_up` returning
`-EPERM`) is an oracle `refuse : Fin 8 → Bool`.
-/

namespace ClusterPlug

abbrev Cpu := Fin 8

/-- `is_big` from the source: `cpu < N_BIG_CPUS` with `N_BIG_CPUS = 4`. -/
def is_big (c : Cpu) : Bool := decide (c.val < 4)

/-- Present CPUs, in the order the kernel `for_each_present_cpu` walks them. -/
def cpus : List Cpu := List.finRange 8

/-- A successful hotplug action on one CPU (`cpu_up` / `cpu_down`). -/
inductive Ev where
  | up : Cpu → Ev
  | down : Cpu → Ev
deriving DecidableEq, Repr

def Ev.isUp : Ev → Bool
  | .up _ => true
  | .down _ => false

def Ev.isDown : Ev → Bool
  | .up _ => false
  | .down _ => true

/-- Effect of one hotplug action on the online mask. -/
def applyEv (onl : Cpu → Bool) : Ev → (Cpu → Bool)
  | .up c => Function.update onl c true
  | .down c => Function.update onl c false

/-- The sequence of online masks observed while a list of hotplug actions
is performed, starting mask included. -/
def statesOf (onl : Cpu → Bool) : List Ev → List (Cpu → Bool)
  | [] => [onl]
  | e :: rest => onl :: statesOf (applyEv onl e) rest

/-- Whether a CPU's cluster is targeted active by the policy
`(big, little)`: the guard of the online pass in `plug_clusters`. -/
def targeted (big lit : Bool) (c : Cpu) : Bool :=
  (is_big c && big) || (!is_big c && lit)

/-- Result of the first (online) pass of `plug_clusters`: the new online
mask, the possibly-updated local `little` flag, the `no_offline` flag and
the successful `cpu_up` events in order. -/
structure P1 where
  online : Cpu → Bool
  little : Bool
  noOffline : Bool
  events : List Ev

/-- First pass of `plug_clusters`: walk the present CPUs; for each CPU of
a targeted cluster that is not online, call `cpu_up`.  A refusal
(`-EPERM`) sets `no_offline`; the `cluster_plug.c` revision (`fl = true`)
additionally sets the local `little` flag, the `_001` revision
(`fl = false`) leaves it. -/
def pass1 (fl : Bool) (refuse : Cpu → Bool) (big : Bool) :
    List Cpu → (Cpu → Bool) → Bool → P1
  | [], onl, lit => ⟨onl, lit, false, []⟩
  | c :: rest, onl, lit =>
    if targeted big lit c then
      if onl c then pass1 fl refuse big rest onl lit
      else if refuse c then
        let r := pass1 fl refuse big rest onl (fl || lit)
        ⟨r.online, r.little, true, r.events⟩
      else
        let r := pass1 fl refuse big rest (Function.update onl c true) lit
        ⟨r.online, r.little, r.noOffline, Ev.up c :: r.events⟩
    else pass1 fl refuse big rest onl lit

/-- Result of the second (offline) pass: new online mask and the
`cpu_down` events in order. -/
structure P2 where
  online : Cpu → Bool
  events : List Ev

/-- Second pass of `plug_clusters`: take down every online CPU whose
cluster is not targeted. -/
def pass2 (big lit : Bool) : List Cpu → (Cpu → Bool) → P2
  | [], onl => ⟨onl, []⟩
  | c :: rest, onl =>
    if onl c && ((is_big c && !big) || (!is_big c && !lit)) then
      let r := pass2 big lit rest (Function.update onl c false)
      ⟨r.online, Ev.down c :: r.events⟩
    else pass2 big lit rest onl

/-- Full result of one `plug_clusters` invocation. -/
structure PlugResult where
  events : List Ev
  online : Cpu → Bool
  refused : Bool

/-- `plug_clusters(big, little)`: online pass first, then — unless some
activation was refused (`no_offline`) — the offline pass. -/
def plugRun (fl : Bool) (refuse : Cpu → Bool) (big little : Bool)
    (onl : Cpu → Bool) : PlugResult :=
  let r1 := pass1 fl refuse big cpus onl little
  if r1.noOffline then ⟨r1.events, r1.online, true⟩
  else
    let r2 := pass2 big r1.little cpus r1.online
    ⟨r1.events ++ r2.events, r2.online, false⟩

/-- `plug_clusters` of `arch/arm/hotplug/cluster_plug.c` (refusal forces
`little = true`). -/
def plug_clusters : (Cpu → Bool) → Bool → Bool → (Cpu → Bool) → PlugResult :=
  plugRun true

/-- `plug_clusters` of the `_001` revision (refusal only suppresses the
offline pass). -/
def plug_clusters_001 : (Cpu → Bool) → Bool → Bool → (Cpu → Bool) → PlugResult :=
  plugRun false

end ClusterPlug

namespace ClusterPlug

lemma pass1_online_mono (fl : Bool) (refuse : Cpu → Bool) (big : Bool) :
    ∀ (l : List Cpu) (onl : Cpu → Bool) (lit : Bool) (c : Cpu),
      onl c = true → (pass1 fl refuse big l onl lit).online c = true := by
  intro l
  induction l with
  | nil => intro onl lit c h; simpa [pass1] using h
  | cons d rest ih =>
    intro onl lit c h
    by_cases h1 : targeted big lit d
    · by_cases h2 : onl d
      · simpa [pass1, h1, h2] using ih onl lit c h
      · by_cases h3 : refuse d
        · simpa [pass1, h1, h2, h3] using ih onl (fl || lit) c h
        · have h' : Function.update onl d true c = true := by
            by_cases hc : c = d <;> simp [Function.update, hc, h]
          simpa [pass1, h1, h2, h3] using ih _ lit c h'
    · simpa [pass1, h1] using ih onl lit c h

lemma pass1_events_isUp (fl : Bool) (refuse : Cpu → Bool) (big : Bool) :
    ∀ (l : List Cpu) (onl : Cpu → Bool) (lit : Bool) (e : Ev),
      e ∈ (pass1 fl refuse big l onl lit).events → e.isUp = true := by
  intro l
  induction l with
  | nil => intro onl lit e h; simp [pass1] at h
  | cons d rest ih =>
    intro onl lit e h
    by_cases h1 : targeted big lit d
    · by_cases h2 : onl d
      · exact ih onl lit e (by simpa [pass1, h1, h2] using h)
      · by_cases h3 : refuse d
        · exact ih onl (fl || lit) e (by simpa [pass1, h1, h2, h3] using h)
        · simp only [pass1, h1, h2, h3] at h
          simp only [if_true, if_false] at h
          rcases List.mem_cons.mp (by simpa using h) with he | he
          · simp [he, Ev.isUp]
          · exact ih _ lit e he
    · exact ih onl lit e (by simpa [pass1, h1] using h)

end ClusterPlug

namespace ClusterPlug

lemma pass1_up_online (fl : Bool) (refuse : Cpu → Bool) (big : Bool) :
    ∀ (l : List Cpu) (onl : Cpu → Bool) (lit : Bool) (c : Cpu),
      Ev.up c ∈ (pass1 fl refuse big l onl lit).events →
      (pass1 fl refuse big l onl lit).online c = true := by
  intro l
  induction l with
  | nil => intro onl lit c h; simp [pass1] at h
  | cons d rest ih =>
    intro onl lit c h
    by_cases h1 : targeted big lit d
    · by_cases h2 : onl d
      · simp only [pass1, h1, h2, if_true, if_false] at h ⊢
        exact ih onl lit c (by simpa using h)
      · by_cases h3 : refuse d
        · simp only [pass1, h1, h2, h3, if_true, if_false] at h ⊢
          exact ih onl (fl || lit) c (by simpa using h)
        · simp only [pass1, h1, h2, h3, if_true, if_false] at h ⊢
          rcases (by simpa using h : c = d ∨ Ev.up c ∈ (pass1 fl refuse big rest (Function.update onl d true) lit).events) with he | he
          · subst he
            exact pass1_online_mono fl refuse big rest _ lit c
              (by simp [Function.update])
          · exact ih _ lit c he
    · simp only [pass1, h1, if_false] at h ⊢
      exact ih onl lit c (by simpa using h)

lemma pass1_little_true (fl : Bool) (refuse : Cpu → Bool) (big : Bool) :
    ∀ (l : List Cpu) (onl : Cpu → Bool),
      (pass1 fl refuse big l onl true).little = true := by
  intro l
  induction l with
  | nil => intro onl; simp [pass1]
  | cons d rest ih =>
    intro onl
    by_cases h1 : targeted big true d
    · by_cases h2 : onl d
      · simpa [pass1, h1, h2] using ih onl
      · by_cases h3 : refuse d
        · simpa [pass1, h1, h2, h3] using ih onl
        · simpa [pass1, h1, h2, h3] using ih _
    · simpa [pass1, h1] using ih onl

lemma pass1_noOffline_little (fl : Bool) (refuse : Cpu → Bool) (big : Bool) :
    ∀ (l : List Cpu) (onl : Cpu → Bool) (lit : Bool),
      (pass1 fl refuse big l onl lit).noOffline = false →
      (pass1 fl refuse big l onl lit).little = lit := by
  intro l
  induction l with
  | nil => intro onl lit _; simp [pass1]
  | cons d rest ih =>
    intro onl lit h
    by_cases h1 : targeted big lit d
    · by_cases h2 : onl d
      · simp only [pass1, h1, h2, if_true, if_false] at h ⊢
        exact ih onl lit h
      · by_cases h3 : refuse d
        · simp [pass1, h1, h2, h3] at h
        · simp only [pass1, h1, h2, h3, if_true, if_false] at h ⊢
          exact ih _ lit h
    · simp only [pass1, h1, if_false] at h ⊢
      exact ih onl lit h

lemma pass1_targeted_online (fl : Bool) (refuse : Cpu → Bool) (big : Bool) :
    ∀ (l : List Cpu) (onl : Cpu → Bool) (lit : Bool),
      (pass1 fl refuse big l onl lit).noOffline = false →
      ∀ c ∈ l, targeted big lit c = true →
        (pass1 fl refuse big l onl lit).online c = true := by
  intro l
  induction l with
  | nil => intro onl lit _ c hc; simp at hc
  | cons d rest ih =>
    intro onl lit h c hc htc
    rcases List.mem_cons.mp hc with hcd | hcr
    · subst hcd
      by_cases h2 : onl c
      · simp only [pass1, htc, h2, if_true] at h ⊢
        exact pass1_online_mono fl refuse big rest onl lit c h2
      · by_cases h3 : refuse c
        · simp [pass1, htc, h2, h3] at h
        · simp only [pass1, htc, h2, h3, if_true, if_false] at h ⊢
          exact pass1_online_mono fl refuse big rest _ lit c (by simp [Function.update])
    · by_cases h1 : targeted big lit d
      · by_cases h2 : onl d
        · simp only [pass1, h1, h2, if_true, if_false] at h ⊢
          exact ih onl lit h c hcr htc
        · by_cases h3 : refuse d
          · simp [pass1, h1, h2, h3] at h
          · simp only [pass1, h1, h2, h3, if_true, if_false] at h ⊢
            exact ih _ lit h c hcr htc
      · simp only [pass1, h1, if_false] at h ⊢
        exact ih onl lit h c hcr htc

end ClusterPlug

namespace ClusterPlug

lemma pass1_foldl (fl : Bool) (refuse : Cpu → Bool) (big : Bool) :
    ∀ (l : List Cpu) (onl : Cpu → Bool) (lit : Bool),
      (pass1 fl refuse big l onl lit).online =
        List.foldl applyEv onl (pass1 fl refuse big l onl lit).events := by
  intro l
  induction l with
  | nil => intro onl lit; simp [pass1]
  | cons d rest ih =>
    intro onl lit
    by_cases h1 : targeted big lit d
    · by_cases h2 : onl d
      · simpa [pass1, h1, h2] using ih onl lit
      · by_cases h3 : refuse d
        · simpa [pass1, h1, h2, h3] using ih onl (fl || lit)
        · simp only [pass1, h1, h2, h3, if_true, if_false]
          simpa [List.foldl_cons, applyEv] using ih (Function.update onl d true) lit
    · simpa [pass1, h1] using ih onl lit

lemma pass1_up_targeted (fl : Bool) (refuse : Cpu → Bool) (big : Bool) :
    ∀ (l : List Cpu) (onl : Cpu → Bool) (lit : Bool) (c : Cpu),
      (pass1 fl refuse big l onl lit).noOffline = false →
      Ev.up c ∈ (pass1 fl refuse big l onl lit).events →
      targeted big lit c = true := by
  intro l
  induction l with
  | nil => intro onl lit c _ h; simp [pass1] at h
  | cons d rest ih =>
    intro onl lit c hno h
    by_cases h1 : targeted big lit d
    · by_cases h2 : onl d
      · simp only [pass1, h1, h2, if_true, if_false] at hno h
        exact ih onl lit c hno h
      · by_cases h3 : refuse d
        · simp [pass1, h1, h2, h3] at hno
        · simp only [pass1, h1, h2, h3, if_true, if_false] at hno h
          rcases (by simpa using h :
              c = d ∨ Ev.up c ∈
                (pass1 fl refuse big rest (Function.update onl d true) lit).events) with
            he | he
          · subst he; exact h1
          · exact ih _ lit c hno he
    · simp only [pass1, h1, if_false] at hno h
      exact ih onl lit c hno h

lemma pass1_append_noOffline (fl : Bool) (refuse : Cpu → Bool) (big : Bool) :
    ∀ (l1 l2 : List Cpu) (onl : Cpu → Bool) (lit : Bool),
      (pass1 fl refuse big (l1 ++ l2) onl lit).noOffline =
        ((pass1 fl refuse big l1 onl lit).noOffline ||
          (pass1 fl refuse big l2 (pass1 fl refuse big l1 onl lit).online
            (pass1 fl refuse big l1 onl lit).little).noOffline) := by
  intro l1
  induction l1 with
  | nil => intro l2 onl lit; simp [pass1]
  | cons d rest ih =>
    intro l2 onl lit
    by_cases h1 : targeted big lit d
    · by_cases h2 : onl d
      · simpa [pass1, h1, h2] using ih l2 onl lit
      · by_cases h3 : refuse d
        · simp [pass1, h1, h2, h3, ih l2 onl (fl || lit)]
        · simpa [pass1, h1, h2, h3] using ih l2 (Function.update onl d true) lit
    · simpa [pass1, h1] using ih l2 onl lit

lemma pass1_append_little (fl : Bool) (refuse : Cpu → Bool) (big : Bool) :
    ∀ (l1 l2 : List Cpu) (onl : Cpu → Bool) (lit : Bool),
      (pass1 fl refuse big (l1 ++ l2) onl lit).little =
        (pass1 fl refuse big l2 (pass1 fl refuse big l1 onl lit).online
          (pass1 fl refuse big l1 onl lit).little).little := by
  intro l1
  induction l1 with
  | nil => intro l2 onl lit; simp [pass1]
  | cons d rest ih =>
    intro l2 onl lit
    by_cases h1 : targeted big lit d
    · by_cases h2 : onl d
      · simpa [pass1, h1, h2] using ih l2 onl lit
      · by_cases h3 : refuse d
        · simpa [pass1, h1, h2, h3] using ih l2 onl (fl || lit)
        · simpa [pass1, h1, h2, h3] using ih l2 (Function.update onl d true) lit
    · simpa [pass1, h1] using ih l2 onl lit

lemma pass1_append_online (fl : Bool) (refuse : Cpu → Bool) (big : Bool) :
    ∀ (l1 l2 : List Cpu) (onl : Cpu → Bool) (lit : Bool),
      (pass1 fl refuse big (l1 ++ l2) onl lit).online =
        (pass1 fl refuse big l2 (pass1 fl refuse big l1 onl lit).online
          (pass1 fl refuse big l1 onl lit).little).online := by
  intro l1
  induction l1 with
  | nil => intro l2 onl lit; simp [pass1]
  | cons d rest ih =>
    intro l2 onl lit
    by_cases h1 : targeted big lit d
    · by_cases h2 : onl d
      · simpa [pass1, h1, h2] using ih l2 onl lit
      · by_cases h3 : refuse d
        · simpa [pass1, h1, h2, h3] using ih l2 onl (fl || lit)
        · simpa [pass1, h1, h2, h3] using ih l2 (Function.update onl d true) lit
    · simpa [pass1, h1] using ih l2 onl lit

lemma pass1_noOffline_refused (refuse : Cpu → Bool) (big : Bool) :
    ∀ (l : List Cpu) (onl : Cpu → Bool) (lit : Bool),
      (pass1 true refuse big l onl lit).noOffline = true →
      (pass1 true refuse big l onl lit).little = true := by
  intro l
  induction l with
  | nil => intro onl lit h; simp [pass1] at h
  | cons d rest ih =>
    intro onl lit h
    by_cases h1 : targeted big lit d
    · by_cases h2 : onl d
      · simp only [pass1, h1, h2, if_true, if_false] at h ⊢
        exact ih onl lit h
      · by_cases h3 : refuse d
        · simp only [pass1, h1, h2, h3, if_true, if_false]
          simpa using pass1_little_true true refuse big rest onl
        · simp only [pass1, h1, h2, h3, if_true, if_false] at h ⊢
          exact ih _ lit h
    · simp only [pass1, h1, if_false] at h ⊢
      exact ih onl lit h

lemma pass1_little_all_up (fl : Bool) (refuse : Cpu → Bool) (big : Bool) :
    ∀ (l : List Cpu) (onl : Cpu → Bool) (c : Cpu), c ∈ l →
      is_big c = false → refuse c = false →
      (pass1 fl refuse big l onl true).online c = true := by
  intro l
  induction l with
  | nil => intro onl c hc; simp at hc
  | cons d rest ih =>
    intro onl c hc hbig href
    rcases List.mem_cons.mp hc with hcd | hcr
    · subst hcd
      have h1 : targeted big true c = true := by simp [targeted, hbig]
      by_cases h2 : onl c
      · simp only [pass1, h1, h2, if_true]
        exact pass1_online_mono fl refuse big rest onl true c h2
      · simp only [pass1, h1, h2, href, if_true, if_false]
        exact pass1_online_mono fl refuse big rest _ true c (by simp [Function.update])
    · by_cases h1 : targeted big true d
      · by_cases h2 : onl d
        · simp only [pass1, h1, h2, if_true]
          exact ih onl c hcr hbig href
        · by_cases h3 : refuse d
          · simp only [pass1, h1, h2, h3, if_true, if_false]
            simpa using ih onl c hcr hbig href
          · simp only [pass1, h1, h2, h3, if_true, if_false]
            exact ih _ c hcr hbig href
      · simp only [pass1, h1, if_false]
        exact ih onl c hcr hbig href

lemma pass1_all_little (fl : Bool) (refuse : Cpu → Bool) (big : Bool) :
    ∀ (l : List Cpu) (onl : Cpu → Bool),
      (∀ c ∈ l, is_big c = false) →
      pass1 fl refuse big l onl false = ⟨onl, false, false, []⟩ := by
  intro l
  induction l with
  | nil => intro onl _; simp [pass1]
  | cons d rest ih =>
    intro onl hall
    have h1 : targeted big false d = false := by
      simp [targeted, hall d (List.mem_cons_self d rest)]
    simp only [pass1, h1, if_false]
    exact ih onl fun c hc => hall c (List.mem_cons_of_mem d hc)

end ClusterPlug

namespace ClusterPlug

lemma pass2_events_isDown (big lit : Bool) :
    ∀ (l : List Cpu) (onl : Cpu → Bool) (e : Ev),
      e ∈ (pass2 big lit l onl).events → e.isDown = true := by
  intro l
  induction l with
  | nil => intro onl e h; simp [pass2] at h
  | cons d rest ih =>
    intro onl e h
    by_cases h1 : (onl d && ((is_big d && !big) || (!is_big d && !lit))) = true
    · simp only [pass2, h1, if_true] at h
      rcases List.mem_cons.mp (by simpa using h) with he | he
      · simp [he, Ev.isDown]
      · exact ih _ e he
    · simp only [pass2, h1, if_false] at h
      exact ih onl e h

lemma pass2_down_not_targeted (big lit : Bool) :
    ∀ (l : List Cpu) (onl : Cpu → Bool) (c : Cpu),
      Ev.down c ∈ (pass2 big lit l onl).events → targeted big lit c = false := by
  intro l
  induction l with
  | nil => intro onl c h; simp [pass2] at h
  | cons d rest ih =>
    intro onl c h
    by_cases h1 : (onl d && ((is_big d && !big) || (!is_big d && !lit))) = true
    · simp only [pass2, h1, if_true] at h
      rcases (by simpa using h :
          c = d ∨ Ev.down c ∈ (pass2 big lit rest (Function.update onl d false)).events) with
        he | he
      · subst he
        rcases Bool.or_eq_true_iff.mp (Bool.and_elim_right h1) with hb | hb
        · have hbig : is_big c = true := Bool.and_elim_left hb
          have hnb : big = false := by simpa using Bool.and_elim_right hb
          simp [targeted, hbig, hnb]
        · have hbig : is_big c = false := by simpa using Bool.and_elim_left hb
          have hnl : lit = false := by simpa using Bool.and_elim_right hb
          simp [targeted, hbig, hnl]
      · exact ih _ c he
    · simp only [pass2, h1, if_false] at h
      exact ih onl c h

lemma pass2_foldl (big lit : Bool) :
    ∀ (l : List Cpu) (onl : Cpu → Bool),
      (pass2 big lit l onl).online =
        List.foldl applyEv onl (pass2 big lit l onl).events := by
  intro l
  induction l with
  | nil => intro onl; simp [pass2]
  | cons d rest ih =>
    intro onl
    by_cases h1 : (onl d && ((is_big d && !big) || (!is_big d && !lit))) = true
    · simp only [pass2, h1, if_true]
      simpa [List.foldl_cons, applyEv] using ih (Function.update onl d false)
    · simp only [pass2, h1, if_false]
      exact ih onl

lemma statesOf_mem_append (l1 l2 : List Ev) :
    ∀ (onl : Cpu → Bool) (s : Cpu → Bool), s ∈ statesOf onl (l1 ++ l2) →
      s ∈ statesOf onl l1 ∨ s ∈ statesOf (List.foldl applyEv onl l1) l2 := by
  induction l1 with
  | nil => intro onl s h; right; simpa using h
  | cons e rest ih =>
    intro onl s h
    simp only [List.cons_append, statesOf, List.mem_cons] at h
    rcases h with h | h
    · left; simp [statesOf, h]
    · rcases ih (applyEv onl e) s h with h' | h'
      · left; simp [statesOf, h']
      · right; simpa [List.foldl_cons] using h'

lemma statesOf_ups (evs : List Ev) :
    ∀ (onl : Cpu → Bool), (∀ e ∈ evs, e.isUp = true) →
      ∀ s ∈ statesOf onl evs, ∀ c, onl c = true → s c = true := by
  induction evs with
  | nil => intro onl _ s hs c hc; simp only [statesOf, List.mem_singleton] at hs; subst hs; exact hc
  | cons e rest ih =>
    intro onl hup s hs c hc
    simp only [statesOf, List.mem_cons] at hs
    rcases hs with hs | hs
    · subst hs; exact hc
    · cases e with
      | up d =>
        have : applyEv onl (Ev.up d) c = true := by
          by_cases hcd : c = d <;> simp [applyEv, Function.update, hcd, hc]
        exact ih (applyEv onl (Ev.up d)) (fun e he => hup e (List.mem_cons_of_mem _ he))
          s hs c this
      | down d =>
        have := hup (Ev.down d) (List.mem_cons_self _ _)
        simp [Ev.isDown, Ev.isUp] at this

lemma statesOf_keep (p : Cpu → Bool) (evs : List Ev) :
    ∀ (onl : Cpu → Bool),
      (∀ c, p c = true → onl c = true) →
      (∀ c, p c = true → Ev.down c ∉ evs) →
      ∀ s ∈ statesOf onl evs, ∀ c, p c = true → s c = true := by
  induction evs with
  | nil =>
    intro onl h1 _ s hs c hc
    simp only [statesOf, List.mem_singleton] at hs; subst hs; exact h1 c hc
  | cons e rest ih =>
    intro onl h1 h2 s hs c hc
    simp only [statesOf, List.mem_cons] at hs
    rcases hs with hs | hs
    · subst hs; exact h1 c hc
    · have h1' : ∀ c, p c = true → applyEv onl e c = true := by
        intro c' hc'
        cases e with
        | up d => by_cases hcd : c' = d <;> simp [applyEv, Function.update, hcd, h1 c' hc']
        | down d =>
          have hne : c' ≠ d := by
            intro he; subst he
            exact h2 c' hc' (List.mem_cons_self _ _)
          simp [applyEv, Function.update, hne, h1 c' hc']
      have h2' : ∀ c, p c = true → Ev.down c ∉ rest := by
        intro c' hc' hmem
        exact h2 c' hc' (List.mem_cons_of_mem _ hmem)
      exact ih (applyEv onl e) h1' h2' s hs c hc

end ClusterPlug

namespace ClusterPlug

lemma mem_cpus (c : Cpu) : c ∈ cpus := List.mem_finRange c

lemma exists_targeted (big little : Bool) (hpol : (big || little) = true) :
    ∃ c, targeted big little c = true := by
  rcases Bool.or_eq_true_iff.mp hpol with h | h
  · refine ⟨0, ?_⟩
    have h0 : is_big 0 = true := by decide
    simp [targeted, h0, h]
  · refine ⟨4, ?_⟩
    have h4 : is_big 4 = false := by decide
    simp [targeted, h4, h]

/-- Claim C1: for every policy with at least one cluster targeted active and
every starting active-set with at least one active unit, `plug_clusters`
(either revision) performs all activations before any deactivation, returns
before any deactivation whenever an activation was refused, and every
intermediate online mask is a superset of the old active set or of the newly
activated units — in particular it is never empty. -/
theorem C1_apply_never_zero_active (fl : Bool) (refuse : Cpu → Bool)
    (big little : Bool) (onl : Cpu → Bool)
    (hpol : (big || little) = true) (hne : ∃ c, onl c = true) :
    (∃ us ds, (plugRun fl refuse big little onl).events = us ++ ds ∧
        (∀ e ∈ us, e.isUp = true) ∧ (∀ e ∈ ds, e.isDown = true)) ∧
    ((plugRun fl refuse big little onl).refused = true →
        ∀ e ∈ (plugRun fl refuse big little onl).events, e.isUp = true) ∧
    (∀ s ∈ statesOf onl (plugRun fl refuse big little onl).events,
        (∃ c, s c = true) ∧
        ((∀ c, onl c = true → s c = true) ∨
          (∀ c, Ev.up c ∈ (plugRun fl refuse big little onl).events →
            s c = true))) := by
  obtain ⟨c0, hc0⟩ := hne
  by_cases hno : (pass1 fl refuse big cpus onl little).noOffline = true
  · have hr : plugRun fl refuse big little onl =
        ⟨(pass1 fl refuse big cpus onl little).events,
         (pass1 fl refuse big cpus onl little).online, true⟩ := by
      simp [plugRun, hno]
    rw [hr]
    refine ⟨⟨(pass1 fl refuse big cpus onl little).events, [], by simp,
        fun e he => pass1_events_isUp fl refuse big cpus onl little e he,
        by simp⟩, ?_, ?_⟩
    · intro _ e he
      exact pass1_events_isUp fl refuse big cpus onl little e he
    · intro s hs
      have hsup := statesOf_ups _ onl
        (fun e he => pass1_events_isUp fl refuse big cpus onl little e he) s hs
      exact ⟨⟨c0, hsup c0 hc0⟩, Or.inl hsup⟩
  · have hno' : (pass1 fl refuse big cpus onl little).noOffline = false :=
      Bool.not_eq_true _ ▸ eq_false_of_ne_true hno
    have hlit : (pass1 fl refuse big cpus onl little).little = little :=
      pass1_noOffline_little fl refuse big cpus onl little hno'
    have hr : plugRun fl refuse big little onl =
        ⟨(pass1 fl refuse big cpus onl little).events ++
            (pass2 big little cpus (pass1 fl refuse big cpus onl little).online).events,
         (pass2 big little cpus (pass1 fl refuse big cpus onl little).online).online,
         false⟩ := by
      simp [plugRun, hno', hlit]
    rw [hr]
    have hups : ∀ e ∈ (pass1 fl refuse big cpus onl little).events, e.isUp = true :=
      fun e he => pass1_events_isUp fl refuse big cpus onl little e he
    have hdowns : ∀ e ∈
        (pass2 big little cpus (pass1 fl refuse big cpus onl little).online).events,
        e.isDown = true :=
      fun e he => pass2_events_isDown big little cpus _ e he
    refine ⟨⟨_, _, rfl, hups, hdowns⟩, by simp, ?_⟩
    intro s hs
    have htar1 : ∀ c, targeted big little c = true →
        (pass1 fl refuse big cpus onl little).online c = true := by
      intro c hc
      exact pass1_targeted_online fl refuse big cpus onl little hno' c (mem_cpus c) hc
    have hkeep : ∀ c, targeted big little c = true → Ev.down c ∉
        (pass2 big little cpus (pass1 fl refuse big cpus onl little).online).events := by
      intro c hc hmem
      have := pass2_down_not_targeted big little cpus _ c hmem
      rw [this] at hc
      exact Bool.false_ne_true hc
    rcases statesOf_mem_append _ _ onl s hs with hseg | hseg
    · have hsup := statesOf_ups _ onl hups s hseg
      exact ⟨⟨c0, hsup c0 hc0⟩, Or.inl hsup⟩
    · rw [← pass1_foldl fl refuse big cpus onl little] at hseg
      have hmid := statesOf_keep (targeted big little) _ _ htar1 hkeep s hseg
      obtain ⟨cs, hcs⟩ := exists_targeted big little hpol
      refine ⟨⟨cs, hmid cs hcs⟩, Or.inr ?_⟩
      intro c hcup
      rcases List.mem_append.mp hcup with hup | hup
      · exact hmid c (pass1_up_targeted fl refuse big cpus onl little c hno' hup)
      · have := hdowns _ hup
        simp [Ev.isDown] at this

/-- Concrete instance of `C1_apply_never_zero_active`: policy big-only from
an active-set containing only CPU 7, no refusals. -/
theorem C1_witness :
    (∃ us ds,
        (plugRun true (fun _ => false) true false
            (fun c => decide (c.val = 7))).events = us ++ ds ∧
        (∀ e ∈ us, e.isUp = true) ∧ (∀ e ∈ ds, e.isDown = true)) ∧
    ((plugRun true (fun _ => false) true false
          (fun c => decide (c.val = 7))).refused = true →
        ∀ e ∈ (plugRun true (fun _ => false) true false
            (fun c => decide (c.val = 7))).events, e.isUp = true) ∧
    (∀ s ∈ statesOf (fun c => decide (c.val = 7))
        (plugRun true (fun _ => false) true false
          (fun c => decide (c.val = 7))).events,
        (∃ c, s c = true) ∧
        ((∀ c, decide (c.val = 7) = true → s c = true) ∨
          (∀ c, Ev.up c ∈ (plugRun true (fun _ => false) true false
              (fun c => decide (c.val = 7))).events → s c = true))) :=
  C1_apply_never_zero_active true (fun _ => false) true false
    (fun c => decide (c.val = 7)) (by decide) ⟨7, by decide⟩

end ClusterPlug

namespace ClusterPlug

def bigCpus : List Cpu := [0, 1, 2, 3]

def littleCpus : List Cpu := [4, 5, 6, 7]

lemma cpus_split : cpus = bigCpus ++ littleCpus := by decide

lemma mem_littleCpus : ∀ c : Cpu, is_big c = false → c ∈ littleCpus := by decide

lemma littleCpus_all_little : ∀ c ∈ littleCpus, is_big c = false := by decide

lemma plugRun_refused (fl : Bool) (refuse : Cpu → Bool) (big little : Bool)
    (onl : Cpu → Bool) (h : (plugRun fl refuse big little onl).refused = true) :
    (pass1 fl refuse big cpus onl little).noOffline = true ∧
    plugRun fl refuse big little onl =
      ⟨(pass1 fl refuse big cpus onl little).events,
       (pass1 fl refuse big cpus onl little).online, true⟩ := by
  by_cases hno : (pass1 fl refuse big cpus onl little).noOffline = true
  · exact ⟨hno, by simp [plugRun, hno]⟩
  · exfalso
    have hno' := eq_false_of_ne_true hno
    simp [plugRun, hno'] at h

/-- Claim C2 counterexample: in the `_001` revision, an `-EPERM` refusal
does not force the little cluster's target to active.  With policy
`(big := true, little := false)`, only CPU 7 online, and only CPU 0
refusing activation, the invocation sees a refusal, yet little CPU 4 —
whose own activation is never refused — is inactive on return. -/
theorem C2_counterexample :
    (plug_clusters_001 (fun c => decide (c.val = 0)) true false
        (fun c => decide (c.val = 7))).refused = true ∧
    (fun c : Cpu => decide (c.val = 0)) 4 = false ∧
    (plug_clusters_001 (fun c => decide (c.val = 0)) true false
        (fun c => decide (c.val = 7))).online 4 = false := by decide

/-- Claim C2 (amended): in `arch/arm/hotplug/cluster_plug.c`, an invocation
of `plug_clusters` in which some activation is refused performs no
deactivation and forces the little cluster's target to active, so every
little CPU whose own activation is not refused is active on return; in the
`_001` revision a refusal only suppresses the deactivation pass and leaves
the little target unchanged. -/
theorem C2_refusal_forces_little (refuse : Cpu → Bool) (big little : Bool)
    (onl : Cpu → Bool) :
    ((plug_clusters refuse big little onl).refused = true →
      (∀ e ∈ (plug_clusters refuse big little onl).events, e.isUp = true) ∧
      (∀ c, onl c = true → (plug_clusters refuse big little onl).online c = true) ∧
      (∀ c, is_big c = false → refuse c = false →
        (plug_clusters refuse big little onl).online c = true)) ∧
    ((plug_clusters_001 refuse big little onl).refused = true →
      (∀ e ∈ (plug_clusters_001 refuse big little onl).events, e.isUp = true) ∧
      (∀ c, onl c = true →
        (plug_clusters_001 refuse big little onl).online c = true)) := by
  constructor
  · intro h
    unfold plug_clusters at h ⊢
    obtain ⟨hno, hr⟩ := plugRun_refused true refuse big little onl h
    rw [hr]
    refine ⟨fun e he => pass1_events_isUp true refuse big cpus onl little e he,
      fun c hc => pass1_online_mono true refuse big cpus onl little c hc, ?_⟩
    intro c hbig href
    have honl : (pass1 true refuse big cpus onl little).online =
        (pass1 true refuse big littleCpus
          (pass1 true refuse big bigCpus onl little).online
          (pass1 true refuse big bigCpus onl little).little).online := by
      rw [cpus_split] at *
      exact pass1_append_online true refuse big bigCpus littleCpus onl little
    have hnoApp : (pass1 true refuse big cpus onl little).noOffline =
        ((pass1 true refuse big bigCpus onl little).noOffline ||
          (pass1 true refuse big littleCpus
            (pass1 true refuse big bigCpus onl little).online
            (pass1 true refuse big bigCpus onl little).little).noOffline) := by
      rw [cpus_split] at *
      exact pass1_append_noOffline true refuse big bigCpus littleCpus onl little
    by_cases hA : (pass1 true refuse big bigCpus onl little).noOffline = true
    · have hAl : (pass1 true refuse big bigCpus onl little).little = true :=
        pass1_noOffline_refused refuse big bigCpus onl little hA
      rw [honl, hAl]
      exact pass1_little_all_up true refuse big littleCpus _ c
        (mem_littleCpus c hbig) hbig href
    · have hA' := eq_false_of_ne_true hA
      have hAl : (pass1 true refuse big bigCpus onl little).little = little :=
        pass1_noOffline_little true refuse big bigCpus onl little hA'
      by_cases hl : little = true
      · rw [honl, hAl, hl]
        exact pass1_little_all_up true refuse big littleCpus _ c
          (mem_littleCpus c hbig) hbig href
      · exfalso
        have hl' := eq_false_of_ne_true hl
        have hB : pass1 true refuse big littleCpus
            (pass1 true refuse big bigCpus onl little).online
            (pass1 true refuse big bigCpus onl little).little =
            ⟨(pass1 true refuse big bigCpus onl little).online, false, false, []⟩ := by
          rw [hAl, hl']
          exact pass1_all_little true refuse big littleCpus _ littleCpus_all_little
        rw [hnoApp, hA', hB] at hno
        simp at hno
  · intro h
    unfold plug_clusters_001 at h ⊢
    obtain ⟨hno, hr⟩ := plugRun_refused false refuse big little onl h
    rw [hr]
    exact ⟨fun e he => pass1_events_isUp false refuse big cpus onl little e he,
      fun c hc => pass1_online_mono false refuse big cpus onl little c hc⟩

/-- Concrete instance of `C2_refusal_forces_little`: only CPU 0 refuses,
policy big-only, CPU 7 online; both revisions see the refusal. -/
theorem C2_witness :
    ((∀ e ∈ (plug_clusters (fun c => decide (c.val = 0)) true false
        (fun c => decide (c.val = 7))).events, e.isUp = true) ∧
      (∀ c, (fun c : Cpu => decide (c.val = 7)) c = true →
        (plug_clusters (fun c => decide (c.val = 0)) true false
          (fun c => decide (c.val = 7))).online c = true) ∧
      (∀ c, is_big c = false → (fun c : Cpu => decide (c.val = 0)) c = false →
        (plug_clusters (fun c => decide (c.val = 0)) true false
          (fun c => decide (c.val = 7))).online c = true)) ∧
    ((∀ e ∈ (plug_clusters_001 (fun c => decide (c.val = 0)) true false
        (fun c => decide (c.val = 7))).events, e.isUp = true) ∧
      (∀ c, (fun c : Cpu => decide (c.val = 7)) c = true →
        (plug_clusters_001 (fun c => decide (c.val = 0)) true false
          (fun c => decide (c.val = 7))).online c = true)) :=
  ⟨(C2_refusal_forces_little (fun c => decide (c.val = 0)) true false
      (fun c => decide (c.val = 7))).1 (by decide),
   (C2_refusal_forces_little (fun c => decide (c.val = 0)) true false
      (fun c => decide (c.val = 7))).2 (by decide)⟩

end ClusterPlug

namespace ClusterPlug

lemma pass1_noRefuse_noOffline (fl : Bool) (big : Bool) :
    ∀ (l : List Cpu) (onl : Cpu → Bool) (lit : Bool),
      (pass1 fl (fun _ => false) big l onl lit).noOffline = false := by
  intro l
  induction l with
  | nil => intro onl lit; simp [pass1]
  | cons d rest ih =>
    intro onl lit
    by_cases h1 : targeted big lit d
    · by_cases h2 : onl d
      · simpa [pass1, h1, h2] using ih onl lit
      · simpa [pass1, h1, h2] using ih (Function.update onl d true) lit
    · simpa [pass1, h1] using ih onl lit

lemma pass1_noRefuse_online (fl : Bool) (big : Bool) :
    ∀ (l : List Cpu) (onl : Cpu → Bool) (lit : Bool) (c : Cpu),
      (pass1 fl (fun _ => false) big l onl lit).online c =
        (onl c || (decide (c ∈ l) && targeted big lit c)) := by
  intro l
  induction l with
  | nil => intro onl lit c; simp [pass1]
  | cons d rest ih =>
    intro onl lit c
    by_cases h1 : targeted big lit d
    · by_cases h2 : onl d
      · rw [show pass1 fl (fun _ => false) big (d :: rest) onl lit =
            pass1 fl (fun _ => false) big rest onl lit by simp [pass1, h1, h2]]
        rw [ih onl lit c]
        by_cases hc : c = d
        · subst hc; simp [h1, h2]
        · simp [List.mem_cons, hc]
      · rw [show pass1 fl (fun _ => false) big (d :: rest) onl lit =
            ⟨(pass1 fl (fun _ => false) big rest (Function.update onl d true) lit).online,
             (pass1 fl (fun _ => false) big rest (Function.update onl d true) lit).little,
             (pass1 fl (fun _ => false) big rest (Function.update onl d true) lit).noOffline,
             Ev.up d :: (pass1 fl (fun _ => false) big rest
               (Function.update onl d true) lit).events⟩ by simp [pass1, h1, h2]]
        rw [ih (Function.update onl d true) lit c]
        by_cases hc : c = d
        · subst hc; simp [Function.update, h1]
        · simp [Function.update, List.mem_cons, hc]
    · rw [show pass1 fl (fun _ => false) big (d :: rest) onl lit =
          pass1 fl (fun _ => false) big rest onl lit by simp [pass1, h1]]
      rw [ih onl lit c]
      by_cases hc : c = d
      · subst hc
        simp only [eq_false_of_ne_true h1]
        simp [List.mem_cons]
      · simp [List.mem_cons, hc]

lemma pass2_guard_eq (big lit : Bool) (c : Cpu) :
    ((is_big c && !big) || (!is_big c && !lit)) = !(targeted big lit c) := by
  cases hb : is_big c <;> simp [targeted, hb]

lemma pass2_online_char (big lit : Bool) :
    ∀ (l : List Cpu) (onl : Cpu → Bool) (c : Cpu),
      (pass2 big lit l onl).online c =
        (onl c && !(decide (c ∈ l) && !(targeted big lit c))) := by
  intro l
  induction l with
  | nil => intro onl c; simp [pass2]
  | cons d rest ih =>
    intro onl c
    by_cases hg : (onl d && ((is_big d && !big) || (!is_big d && !lit))) = true
    · rw [show pass2 big lit (d :: rest) onl =
          ⟨(pass2 big lit rest (Function.update onl d false)).online,
           Ev.down d :: (pass2 big lit rest (Function.update onl d false)).events⟩ by
            simp only [pass2, hg, if_true]]
      rw [ih (Function.update onl d false) c]
      rw [pass2_guard_eq big lit d] at hg
      have hod : onl d = true := Bool.and_elim_left hg
      have htd : targeted big lit d = false := by
        simpa using Bool.and_elim_right hg
      by_cases hc : c = d
      · subst hc; simp [Function.update, hod, htd]
      · simp [Function.update, List.mem_cons, hc]
    · rw [show pass2 big lit (d :: rest) onl = pass2 big lit rest onl by
          simp [pass2, hg]]
      rw [ih onl c]
      rw [pass2_guard_eq big lit d] at hg
      by_cases hc : c = d
      · subst hc
        by_cases hod : onl c = true
        · have htd : targeted big lit c = true := by
            by_contra hx
            exact hg (by simp [hod, eq_false_of_ne_true hx])
          simp [List.mem_cons, hod, htd]
        · simp [List.mem_cons, eq_false_of_ne_true hod]
      · simp [List.mem_cons, hc]

end ClusterPlug

namespace ClusterPlug

lemma plug_clusters_noRefuse_online (big little : Bool) (onl : Cpu → Bool) :
    (plug_clusters (fun _ => false) big little onl).online =
      fun c => targeted big little c := by
  have hno : (pass1 true (fun _ => false) big cpus onl little).noOffline = false :=
    pass1_noRefuse_noOffline true big cpus onl little
  have hlit : (pass1 true (fun _ => false) big cpus onl little).little = little :=
    pass1_noOffline_little true (fun _ => false) big cpus onl little hno
  have hpr : plug_clusters (fun _ => false) big little onl =
      ⟨(pass1 true (fun _ => false) big cpus onl little).events ++
          (pass2 big little cpus
            (pass1 true (fun _ => false) big cpus onl little).online).events,
       (pass2 big little cpus
          (pass1 true (fun _ => false) big cpus onl little).online).online,
       false⟩ := by
    unfold plug_clusters plugRun
    simp [hno, hlit]
  rw [hpr]
  funext c
  dsimp only
  rw [pass2_online_char big little cpus _ c, pass1_noRefuse_online true big cpus onl little c]
  have hc : decide (c ∈ cpus) = true := by simp [mem_cpus]
  rw [hc]
  cases ht : targeted big little c <;> simp [ht]

/-- Claim C9: the Executor is idempotent — with no refusals, one
`plug_clusters` call leaves exactly the units of the targeted clusters
active, and a second call with the same policy changes nothing. -/
theorem C9_executor_idempotent (big little : Bool) (onl : Cpu → Bool) :
    (plug_clusters (fun _ => false) big little onl).online =
      (fun c => targeted big little c) ∧
    (plug_clusters (fun _ => false) big little
        ((plug_clusters (fun _ => false) big little onl).online)).online =
      (plug_clusters (fun _ => false) big little onl).online :=
  ⟨plug_clusters_noRefuse_online big little onl, by
    rw [plug_clusters_noRefuse_online, plug_clusters_noRefuse_online]⟩

end ClusterPlug

namespace ClusterPlug

/-- `2^32`, the modulus of the driver's `unsigned int` arithmetic. -/
def U32 : Nat := 2 ^ 32

/-- Tunables of the voting revision (`module_param`s of
`arch/arm/hotplug/cluster_plug.c`), in milliseconds / counts. -/
structure VoteConfig where
  sampling_time : Nat
  vote_threshold_up : Nat
  vote_threshold_down : Nat
deriving DecidableEq, Repr

/-- Mutable decision state of the voting revision: `vote_up`, `vote_down`,
the sticky target `little_plugged` and `last_action` (ms timestamp of the
previous tick, from a monotonic clock). -/
structure VoteState where
  vote_up : Nat
  vote_down : Nat
  little_plugged : Bool
  last_action : Nat
deriving DecidableEq, Repr

/-- The staleness bound `5*sampling_time` as the C expression computes it
(`unsigned int` product, promoted for the s64 comparison). -/
def staleBound (cfg : VoteConfig) : Nat := (5 * cfg.sampling_time) % U32

/-- Vote accumulation step of `cluster_plug_work_fn`: a stale sample
(`elapsed > 5*sampling_time`) zeroes both counters, otherwise `vote_up`
follows `loaded >= N_BIG_CPUS - 1` and `vote_down` follows
`unloaded >= N_LITTLE_CPUS + 1`, saturating at zero on decrement. -/
def voteAccum (cfg : VoteConfig) (s : VoteState)
    (now loaded unloaded : Nat) : VoteState :=
  if now - s.last_action > staleBound cfg then
    { s with vote_up := 0, vote_down := 0 }
  else
    { s with
      vote_up :=
        if loaded ≥ 4 - 1 then (s.vote_up + 1) % U32
        else if s.vote_up > 0 then s.vote_up - 1 else s.vote_up,
      vote_down :=
        if unloaded ≥ 4 + 1 then (s.vote_down + 1) % U32
        else if s.vote_down > 0 then s.vote_down - 1 else s.vote_down }

/-- Threshold step of `cluster_plug_work_fn`: crossing `vote_threshold_up`
engages the little cluster, clamps `vote_up` and zeroes `vote_down`;
otherwise with `vote_up == 0` and `vote_down` above `vote_threshold_down`
the little cluster is disengaged and `vote_down` clamped. -/
def voteDecide (cfg : VoteConfig) (s : VoteState) : VoteState :=
  if s.vote_up > cfg.vote_threshold_up then
    { s with
      little_plugged := true
      vote_up := cfg.vote_threshold_up
      vote_down := 0 }
  else if s.vote_up = 0 ∧ s.vote_down > cfg.vote_threshold_down then
    { s with little_plugged := false, vote_down := cfg.vote_threshold_down }
  else s

/-- One tick of the voting revision's `cluster_plug_work_fn` (enabled
path): accumulate votes, set `last_action = now`, apply the thresholds,
and call `plug_clusters(true, little_plugged)` — returned as the policy
pair. -/
def cluster_plug_work_fn (cfg : VoteConfig) (s : VoteState)
    (now loaded unloaded : Nat) : VoteState × (Bool × Bool) :=
  let s1 := voteAccum cfg s now loaded unloaded
  let s2 := { s1 with last_action := now }
  let s3 := voteDecide cfg s2
  (s3, (true, s3.little_plugged))

/-- Iterated ticks over a list of `(now, loaded, unloaded)` samples. -/
def runVote (cfg : VoteConfig) (s : VoteState) :
    List (Nat × Nat × Nat) → VoteState
  | [] => s
  | x :: rest => runVote cfg (cluster_plug_work_fn cfg s x.1 x.2.1 x.2.2).1 rest

/-- Every sample of the list is within the staleness bound of its
predecessor (`last` is the timestamp of the tick before the list). -/
def nonStaleChain (cfg : VoteConfig) (last : Nat) :
    List (Nat × Nat × Nat) → Bool
  | [] => true
  | x :: rest => decide (x.1 - last ≤ staleBound cfg) && nonStaleChain cfg x.1 rest

/-- Claim C3: on a stale tick (`elapsed > 5*sampling_time`) both vote
counters are zeroed regardless of their prior values and of the sampled
loads, `last_action` is still set to `now`, and the sticky
`little_plugged` target — hence the applied policy — is unchanged. -/
theorem C3_stale_tick_resets_votes (cfg : VoteConfig) (s : VoteState)
    (now loaded unloaded : Nat)
    (h : now - s.last_action > staleBound cfg) :
    cluster_plug_work_fn cfg s now loaded unloaded =
      ({ s with vote_up := 0, vote_down := 0, last_action := now },
       (true, s.little_plugged)) := by
  unfold cluster_plug_work_fn voteAccum voteDecide
  rw [if_pos h]
  simp

/-- Concrete instance of `C3_stale_tick_resets_votes`: default tunables,
a 1000 ms gap against a 400 ms staleness bound. -/
theorem C3_witness :
    cluster_plug_work_fn ⟨80, 2, 8⟩ ⟨1, 1, true, 0⟩ 1000 4 5 =
      (⟨0, 0, true, 1000⟩, (true, true)) :=
  C3_stale_tick_resets_votes ⟨80, 2, 8⟩ ⟨1, 1, true, 0⟩ 1000 4 5 (by decide)

lemma runVote_cross (cfg : VoteConfig) :
    ∀ (inputs : List (Nat × Nat × Nat)) (s : VoteState),
      inputs ≠ [] →
      nonStaleChain cfg s.last_action inputs = true →
      (∀ x ∈ inputs, 4 - 1 ≤ x.2.1) →
      s.vote_up + inputs.length = cfg.vote_threshold_up + 1 →
      cfg.vote_threshold_up + 1 < U32 →
      (runVote cfg s inputs).little_plugged = true ∧
      (runVote cfg s inputs).vote_up = cfg.vote_threshold_up ∧
      (runVote cfg s inputs).vote_down = 0 := by
  intro inputs
  induction inputs with
  | nil => intro s h; exact absurd rfl h
  | cons x rest ih =>
    intro s _ hchain hall hlen hU
    have hx := hall x (List.mem_cons_self _ _)
    simp only [nonStaleChain, Bool.and_eq_true, decide_eq_true_eq] at hchain
    have hns : ¬ (x.1 - s.last_action > staleBound cfg) := Nat.not_lt.mpr hchain.1
    cases rest with
    | nil =>
      have hvu : s.vote_up = cfg.vote_threshold_up := by
        simpa using hlen
      have hmod : (s.vote_up + 1) % U32 = s.vote_up + 1 :=
        Nat.mod_eq_of_lt (by omega)
      have hc1 : s.vote_up + 1 > cfg.vote_threshold_up := by omega
      simp [runVote, cluster_plug_work_fn, voteAccum, voteDecide,
        hns, hx, hmod, hc1]
    | cons y rest' =>
      have hmid : s.vote_up + 1 ≤ cfg.vote_threshold_up := by
        have : 1 ≤ (y :: rest').length := by simp
        simp only [List.length_cons] at hlen
        omega
      have hmod : (s.vote_up + 1) % U32 = s.vote_up + 1 :=
        Nat.mod_eq_of_lt (by omega)
      have hc1 : ¬ (s.vote_up + 1 > cfg.vote_threshold_up) := by omega
      have hc2 : (s.vote_up + 1 = 0) = False := by simp
      have hstep : (cluster_plug_work_fn cfg s x.1 x.2.1 x.2.2).1 =
          ⟨s.vote_up + 1,
           (if x.2.2 ≥ 4 + 1 then (s.vote_down + 1) % U32
            else if s.vote_down > 0 then s.vote_down - 1 else s.vote_down),
           s.little_plugged, x.1⟩ := by
        simp [cluster_plug_work_fn, voteAccum, voteDecide,
          hns, hx, hmod, hc1, hc2]
      have hres : runVote cfg s (x :: y :: rest') =
          runVote cfg (cluster_plug_work_fn cfg s x.1 x.2.1 x.2.2).1 (y :: rest') :=
        rfl
      rw [hres, hstep]
      refine ih _ (by simp) ?_ ?_ ?_ hU
      · simpa [nonStaleChain] using hchain.2
      · intro z hz
        exact hall z (List.mem_cons_of_mem _ hz)
      · simp only [List.length_cons] at hlen ⊢
        omega

/-- Claim C4: whenever post-accumulation `vote_up` exceeds
`vote_threshold_up`, the tick engages the little cluster, clamps `vote_up`
to the threshold and zeroes `vote_down`; consequently, starting from
`vote_up = 0`, after `vote_threshold_up + 1` consecutive non-stale
high-load ticks the sticky target is engaged with `vote_up` clamped and
`vote_down` zero. -/
theorem C4_vote_up_convergence (cfg : VoteConfig) :
    (∀ (s : VoteState) (now loaded unloaded : Nat),
      (voteAccum cfg s now loaded unloaded).vote_up > cfg.vote_threshold_up →
      cluster_plug_work_fn cfg s now loaded unloaded =
        (⟨cfg.vote_threshold_up, 0, true, now⟩, (true, true))) ∧
    (∀ (s : VoteState) (inputs : List (Nat × Nat × Nat)),
      s.vote_up = 0 →
      inputs.length = cfg.vote_threshold_up + 1 →
      cfg.vote_threshold_up + 1 < U32 →
      nonStaleChain cfg s.last_action inputs = true →
      (∀ x ∈ inputs, 4 - 1 ≤ x.2.1) →
      (runVote cfg s inputs).little_plugged = true ∧
      (runVote cfg s inputs).vote_up = cfg.vote_threshold_up ∧
      (runVote cfg s inputs).vote_down = 0) := by
  constructor
  · intro s now loaded unloaded h
    simp [cluster_plug_work_fn, voteDecide, h]
  · intro s inputs h0 hlen hU hchain hall
    refine runVote_cross cfg inputs s ?_ hchain hall ?_ hU
    · intro he
      rw [he] at hlen
      simp at hlen
    · omega

/-- Concrete instance of `C4_vote_up_convergence`: default tunables
(`vote_threshold_up = 2`); a single over-threshold tick clamps, and three
consecutive high-load ticks from zero engage the little cluster. -/
theorem C4_witness :
    (cluster_plug_work_fn ⟨80, 2, 8⟩ ⟨4, 5, false, 0⟩ 10 4 0 =
      (⟨2, 0, true, 10⟩, (true, true))) ∧
    ((runVote ⟨80, 2, 8⟩ ⟨0, 0, false, 0⟩
        [(10, 3, 0), (20, 3, 0), (30, 3, 0)]).little_plugged = true ∧
      (runVote ⟨80, 2, 8⟩ ⟨0, 0, false, 0⟩
        [(10, 3, 0), (20, 3, 0), (30, 3, 0)]).vote_up = 2 ∧
      (runVote ⟨80, 2, 8⟩ ⟨0, 0, false, 0⟩
        [(10, 3, 0), (20, 3, 0), (30, 3, 0)]).vote_down = 0) :=
  ⟨(C4_vote_up_convergence ⟨80, 2, 8⟩).1 ⟨4, 5, false, 0⟩ 10 4 0 (by decide),
   (C4_vote_up_convergence ⟨80, 2, 8⟩).2 ⟨0, 0, false, 0⟩
     [(10, 3, 0), (20, 3, 0), (30, 3, 0)] rfl rfl (by decide) (by decide)
     (by decide)⟩

end ClusterPlug

namespace ClusterPlug

/-- One invocation of the `_000` revision's `cluster_plug_work_fn`
decision block (`N_BIG_CPUS = 4`): returns the new `cur_hysteresis` and
the policy passed to `plug_clusters`, if any. -/
def cluster_plug_work_fn_000 (active : Bool) (hysteresis grace loaded : Nat) :
    Nat × Option (Bool × Bool) :=
  if active then
    if loaded ≥ 4 - 1 then (hysteresis, some (true, true))
    else if grace > 0 then (grace - 1, none)
    else (grace, some (true, false))
  else (grace, none)

/-- One invocation of the `_001` revision's `cluster_plug_work_fn`
decision block: `cluster_plug_active` and `prefer_big` are `uint`s, the
high-load plug is guarded by `num_online_cpus() <= 4`, ticks while
`suspended` skip the decision logic, and the downgrade policy is
`plug_clusters(prefer_big, !prefer_big)`. -/
def cluster_plug_work_fn_001 (active prefer_big : Nat) (suspended : Bool)
    (hysteresis grace online_cpus loaded : Nat) : Nat × Option (Bool × Bool) :=
  if active ≠ 0 then
    if suspended = false then
      if loaded ≥ 3 then
        (hysteresis, if online_cpus ≤ 4 then some (true, true) else none)
      else if grace > 0 then (grace - 1, none)
      else (grace, some (decide (prefer_big ≠ 0), decide (prefer_big = 0)))
    else (grace, none)
  else (grace, none)

/-- Claim C5 counterexample: in the `_001` revision (cited by the claim)
a high-load tick with five CPUs online resets the grace counter but
applies no policy at all — the both-clusters policy is not applied. -/
theorem C5_counterexample :
    cluster_plug_work_fn_001 1 1 false 10 7 5 3 = (10, none) ∧
    (none : Option (Bool × Bool)) ≠ some (true, true) := by decide

/-- Claim C5 (amended): on an enabled, non-suspended hysteresis tick, a
high-load sample (`loaded >= total_big_units - 1`) resets grace to the
configured maximum and applies the both-clusters policy — unconditionally
in the `_000` revision, but in the `_001` revision only when at most four
units are online (otherwise no policy is applied on that tick); otherwise
a positive grace counter is decremented with no policy applied, and at
zero grace the downgrade policy activates only the preferred cluster
(big in `_000`, `prefer_big` in `_001`) and deactivates the other. -/
theorem C5_hysteresis_tick (H g pb oc loaded : Nat) :
    (3 ≤ loaded →
      cluster_plug_work_fn_000 true H g loaded = (H, some (true, true))) ∧
    (loaded < 3 → 0 < g →
      cluster_plug_work_fn_000 true H g loaded = (g - 1, none)) ∧
    (loaded < 3 → g = 0 →
      cluster_plug_work_fn_000 true H g loaded = (0, some (true, false))) ∧
    (3 ≤ loaded →
      cluster_plug_work_fn_001 1 pb false H g oc loaded =
        (H, if oc ≤ 4 then some (true, true) else none)) ∧
    (loaded < 3 → 0 < g →
      cluster_plug_work_fn_001 1 pb false H g oc loaded = (g - 1, none)) ∧
    (loaded < 3 → g = 0 →
      cluster_plug_work_fn_001 1 pb false H g oc loaded =
        (0, some (decide (pb ≠ 0), decide (pb = 0)))) := by
  refine ⟨?_, ?_, ?_, ?_, ?_, ?_⟩
  · intro h
    simp [cluster_plug_work_fn_000, h]
  · intro h hg
    have h' : ¬ (4 - 1 ≤ loaded) := by omega
    simp [cluster_plug_work_fn_000, h', hg]
  · intro h hg
    have h' : ¬ (4 - 1 ≤ loaded) := by omega
    simp [cluster_plug_work_fn_000, h', hg]
  · intro h
    simp [cluster_plug_work_fn_001, h]
  · intro h hg
    have h' : ¬ (3 ≤ loaded) := by omega
    simp [cluster_plug_work_fn_001, h', hg]
  · intro h hg
    have h' : ¬ (3 ≤ loaded) := by omega
    simp [cluster_plug_work_fn_001, h', hg]

/-- Concrete instances of `C5_hysteresis_tick`, one per branch
(grace 5 or 0, loaded 3 or 0, four CPUs online). -/
theorem C5_witness :
    cluster_plug_work_fn_000 true 10 5 3 = (10, some (true, true)) ∧
    cluster_plug_work_fn_000 true 10 5 0 = (4, none) ∧
    cluster_plug_work_fn_000 true 10 0 0 = (0, some (true, false)) ∧
    cluster_plug_work_fn_001 1 1 false 10 5 4 3 = (10, some (true, true)) ∧
    cluster_plug_work_fn_001 1 1 false 10 5 4 0 = (4, none) ∧
    cluster_plug_work_fn_001 1 1 false 10 0 4 0 = (0, some (true, false)) := by
  refine ⟨?_, ?_, ?_, ?_, ?_, ?_⟩
  · exact (C5_hysteresis_tick 10 5 1 4 3).1 (by decide)
  · exact (C5_hysteresis_tick 10 5 1 4 0).2.1 (by decide) (by decide)
  · exact (C5_hysteresis_tick 10 0 1 4 0).2.2.1 (by decide) (by decide)
  · simpa using (C5_hysteresis_tick 10 5 1 4 3).2.2.2.1 (by decide)
  · exact (C5_hysteresis_tick 10 5 1 4 0).2.2.2.2.1 (by decide) (by decide)
  · simpa using (C5_hysteresis_tick 10 0 1 4 0).2.2.2.2.2 (by decide) (by decide)

end ClusterPlug

namespace ClusterPlug

/-- The `_000` control loop: iterate `cluster_plug_work_fn_000` over a
list of `loaded_cpus` samples, collecting the per-tick policies. -/
def hystRun000 (active : Bool) (H g : Nat) :
    List Nat → List (Option (Bool × Bool))
  | [] => []
  | l :: ls =>
    (cluster_plug_work_fn_000 active H g l).2 ::
      hystRun000 active H (cluster_plug_work_fn_000 active H g l).1 ls

lemma hystRun000_downgrade (H : Nat) :
    ∀ (ls : List Nat) (g i : Nat),
      (hystRun000 true H g ls).get? i = some (some (true, false)) →
      (∃ v, ls.get? i = some v ∧ v < 3) ∧
      ((g ≤ i ∧ ∀ j ≤ i, ∃ v, ls.get? j = some v ∧ v < 3) ∨
        (∃ k, k ≤ i ∧ (∃ v, ls.get? k = some v ∧ 3 ≤ v) ∧ k + H + 1 ≤ i ∧
          ∀ j, k < j → j ≤ i → ∃ v, ls.get? j = some v ∧ v < 3)) := by
  intro ls
  induction ls with
  | nil => intro g i h; simp [hystRun000] at h
  | cons l ls' ih =>
    intro g i h
    by_cases hl : 3 ≤ l
    · have hrun : hystRun000 true H g (l :: ls') =
          some (true, true) :: hystRun000 true H H ls' := by
        simp [hystRun000, cluster_plug_work_fn_000, hl]
      rw [hrun] at h
      cases i with
      | zero => simp at h
      | succ i' =>
        rw [List.get?_cons_succ] at h
        obtain ⟨hlow, hd⟩ := ih H i' h
        refine ⟨by simpa using hlow, Or.inr ?_⟩
        rcases hd with ⟨hgi, hall⟩ | ⟨k, hki, hhigh, hkH, hlows⟩
        · refine ⟨0, by omega, ⟨l, by simp, hl⟩, by omega, ?_⟩
          intro j hj0 hji
          cases j with
          | zero => omega
          | succ j' =>
            rw [List.get?_cons_succ]
            exact hall j' (by omega)
        · obtain ⟨v, hv, hv3⟩ := hhigh
          refine ⟨k + 1, by omega, ⟨v, by simpa using hv, hv3⟩, by omega, ?_⟩
          intro j hj0 hji
          cases j with
          | zero => omega
          | succ j' =>
            rw [List.get?_cons_succ]
            exact hlows j' (by omega) (by omega)
    · by_cases hg : 0 < g
      · have hrun : hystRun000 true H g (l :: ls') =
            none :: hystRun000 true H (g - 1) ls' := by
          have hl' : ¬ (4 - 1 ≤ l) := by omega
          simp [hystRun000, cluster_plug_work_fn_000, hl', hg]
        rw [hrun] at h
        cases i with
        | zero => simp at h
        | succ i' =>
          rw [List.get?_cons_succ] at h
          obtain ⟨hlow, hd⟩ := ih (g - 1) i' h
          refine ⟨by simpa using hlow, ?_⟩
          rcases hd with ⟨hgi, hall⟩ | ⟨k, hki, hhigh, hkH, hlows⟩
          · refine Or.inl ⟨by omega, ?_⟩
            intro j hji
            cases j with
            | zero =>
              exact ⟨l, by simp, by omega⟩
            | succ j' =>
              rw [List.get?_cons_succ]
              exact hall j' (by omega)
          · obtain ⟨v, hv, hv3⟩ := hhigh
            refine Or.inr ⟨k + 1, by omega, ⟨v, by simpa using hv, hv3⟩, by omega, ?_⟩
            intro j hj0 hji
            cases j with
            | zero => omega
            | succ j' =>
              rw [List.get?_cons_succ]
              exact hlows j' (by omega) (by omega)
      · have hg0 : g = 0 := by omega
        subst hg0
        have hrun : hystRun000 true H 0 (l :: ls') =
            some (true, false) :: hystRun000 true H 0 ls' := by
          have hl' : ¬ (4 - 1 ≤ l) := by omega
          simp [hystRun000, cluster_plug_work_fn_000, hl']
        rw [hrun] at h
        cases i with
        | zero =>
          refine ⟨⟨l, by simp, by omega⟩, Or.inl ⟨by omega, ?_⟩⟩
          intro j hj
          have hj0 : j = 0 := by omega
          subst hj0
          exact ⟨l, by simp, by omega⟩
        | succ i' =>
          rw [List.get?_cons_succ] at h
          obtain ⟨hlow, hd⟩ := ih 0 i' h
          refine ⟨by simpa using hlow, ?_⟩
          rcases hd with ⟨hgi, hall⟩ | ⟨k, hki, hhigh, hkH, hlows⟩
          · refine Or.inl ⟨by omega, ?_⟩
            intro j hji
            cases j with
            | zero => exact ⟨l, by simp, by omega⟩
            | succ j' =>
              rw [List.get?_cons_succ]
              exact hall j' (by omega)
          · obtain ⟨v, hv, hv3⟩ := hhigh
            refine Or.inr ⟨k + 1, by omega, ⟨v, by simpa using hv, hv3⟩, by omega, ?_⟩
            intro j hj0 hji
            cases j with
            | zero => omega
            | succ j' =>
              rw [List.get?_cons_succ]
              exact hlows j' (by omega) (by omega)

/-- Claim C6: in the `_000` hysteresis revision, starting from a
just-reset grace counter (`cur_hysteresis = hysteresis`), the downgrade
policy `(true, false)` can only be emitted at a tick `i ≥ hysteresis`
whose `hysteresis` immediately preceding samples — and the sample at `i`
itself — are all below `N_BIG_CPUS - 1`; any intervening high-load sample
restarts the count. -/
theorem C6_hysteresis_monotonic (H : Nat) (ls : List Nat) (i : Nat)
    (h : (hystRun000 true H H ls).get? i = some (some (true, false))) :
    H ≤ i ∧ ∀ j, i - H ≤ j → j ≤ i → ∃ v, ls.get? j = some v ∧ v < 3 := by
  obtain ⟨hlow, hd⟩ := hystRun000_downgrade H ls H i h
  rcases hd with ⟨hgi, hall⟩ | ⟨k, hki, hhigh, hkH, hlows⟩
  · exact ⟨hgi, fun j _ hj => hall j hj⟩
  · refine ⟨by omega, ?_⟩
    intro j hj1 hj2
    exact hlows j (by omega) hj2

/-- Concrete instance of `C6_hysteresis_monotonic`: `hysteresis = 2`,
three consecutive idle samples, downgrade emitted at tick 2. -/
theorem C6_witness :
    2 ≤ 2 ∧ ∀ j, 2 - 2 ≤ j → j ≤ 2 →
      ∃ v, ([0, 0, 0] : List Nat).get? j = some v ∧ v < 3 :=
  C6_hysteresis_monotonic 2 [0, 0, 0] 2 (by decide)

end ClusterPlug

namespace ClusterPlug

/-- The `_001` control loop with the `suspended` flag fixed: iterate
`cluster_plug_work_fn_001` over `(online_cpus, loaded_cpus)` samples,
returning the final grace counter and the per-tick policies. -/
def runTicks001 (active prefer_big : Nat) (suspended : Bool) (H grace : Nat) :
    List (Nat × Nat) → Nat × List (Option (Bool × Bool))
  | [] => (grace, [])
  | x :: rest =>
    let r := cluster_plug_work_fn_001 active prefer_big suspended H grace x.1 x.2
    let rr := runTicks001 active prefer_big suspended H r.1 rest
    (rr.1, r.2 :: rr.2)

/-- Effect of one tick's policy on the online mask: a tick that emitted no
policy touches nothing, otherwise `plug_clusters` runs (no refusals). -/
def applyPolicyOpt (onl : Cpu → Bool) : Option (Bool × Bool) → (Cpu → Bool)
  | none => onl
  | some p => (plug_clusters_001 (fun _ => false) p.1 p.2 onl).online

/-- `cluster_plug_suspend` of the `_001` revision: set `suspended := true`
and, when the driver is active, apply the override policy
`plug_clusters(false, true)`. -/
def cluster_plug_suspend (active : Nat) (onl : Cpu → Bool) :
    Bool × (Cpu → Bool) :=
  (true,
   if active ≠ 0 then (plug_clusters_001 (fun _ => false) false true onl).online
   else onl)

lemma runTicks001_suspended (pb H g : Nat) :
    ∀ inputs : List (Nat × Nat),
      runTicks001 1 pb true H g inputs =
        (g, List.map (fun _ => none) inputs) := by
  intro inputs
  induction inputs with
  | nil => simp [runTicks001]
  | cons x rest ih => simp [runTicks001, cluster_plug_work_fn_001, ih]

lemma foldl_applyPolicyOpt_none (onl : Cpu → Bool) :
    ∀ l : List (Nat × Nat),
      List.foldl applyPolicyOpt onl (List.map (fun _ => none) l) = onl := by
  intro l
  induction l with
  | nil => simp
  | cons x rest ih => simpa [applyPolicyOpt] using ih

/-- Claim C8: while `suspended` is true, every enabled tick of the `_001`
revision leaves the grace counter unchanged and emits no activation or
deactivation (policy `none`), so the online mask — in particular the
override mask installed by `cluster_plug_suspend` — is unchanged by any
sequence of ticked samples. -/
theorem C8_suspended_ticks_no_effect (pb H g : Nat)
    (inputs : List (Nat × Nat)) :
    (∀ oc lc : Nat,
      cluster_plug_work_fn_001 1 pb true H g oc lc = (g, none)) ∧
    (runTicks001 1 pb true H g inputs).1 = g ∧
    (∀ p ∈ (runTicks001 1 pb true H g inputs).2, p = none) ∧
    (∀ onl : Cpu → Bool,
      List.foldl applyPolicyOpt onl (runTicks001 1 pb true H g inputs).2 = onl) ∧
    (∀ onl : Cpu → Bool,
      List.foldl applyPolicyOpt (cluster_plug_suspend 1 onl).2
        (runTicks001 1 pb true H g inputs).2 = (cluster_plug_suspend 1 onl).2) := by
  refine ⟨?_, ?_, ?_, ?_, ?_⟩
  · intro oc lc
    simp [cluster_plug_work_fn_001]
  · rw [runTicks001_suspended]
  · rw [runTicks001_suspended]
    intro p hp
    simp at hp
    exact hp.2
  · intro onl
    rw [runTicks001_suspended]
    exact foldl_applyPolicyOpt_none onl inputs
  · intro onl
    rw [runTicks001_suspended]
    exact foldl_applyPolicyOpt_none _ inputs

/-- Concrete instance of `C8_suspended_ticks_no_effect`: two suspended
ticks with high and low samples leave grace and the all-online mask
untouched. -/
theorem C8_witness :
    cluster_plug_work_fn_001 1 1 true 10 7 8 4 = (7, none) ∧
    (runTicks001 1 1 true 10 7 [(8, 4), (2, 0)]).1 = 7 ∧
    (none : Option (Bool × Bool)) = none ∧
    List.foldl applyPolicyOpt (fun _ => true)
      (runTicks001 1 1 true 10 7 [(8, 4), (2, 0)]).2 = (fun _ => true) :=
  ⟨(C8_suspended_ticks_no_effect 1 10 7 [(8, 4), (2, 0)]).1 8 4,
   (C8_suspended_ticks_no_effect 1 10 7 [(8, 4), (2, 0)]).2.1,
   (C8_suspended_ticks_no_effect 1 10 7 [(8, 4), (2, 0)]).2.2.1 none (by decide),
   (C8_suspended_ticks_no_effect 1 10 7 [(8, 4), (2, 0)]).2.2.2.1
     (fun _ => true)⟩

end ClusterPlug

namespace ClusterPlug

/-- `2^64`, the modulus of the `u64` idle/wall counters. -/
def U64 : Nat := 2 ^ 64

/-- Per-CPU accounting record of the Load Sampler (`struct cp_cpu_info`). -/
structure CpInfo where
  prev_cpu_wall : Nat
  prev_cpu_idle : Nat
deriving DecidableEq, Repr

/-- `(unsigned int)(cur - prev)` where both counters are `u64`: the `u64`
wrapping difference truncated to 32 bits. -/
def sampleDelta (cur prev : Nat) : Nat := ((cur + U64 - prev) % U64) % U32

/-- Sampling one online CPU in `calculate_loaded_cpus`: compute the wall
and idle deltas, store the current counters unconditionally, skip the
classification when the sample is degenerate
(`!wall_time || wall_time < idle_time`), otherwise classify by
`cpu_load = 100 * (wall_time - idle_time) / wall_time` against the two
thresholds.  Returns the `loaded`/`unloaded` increments and the new
record. -/
def sampleCpu (thU thD : Nat) (prev : CpInfo) (cur_w cur_i : Nat) :
    Nat × Nat × CpInfo :=
  let wall_time := sampleDelta cur_w prev.prev_cpu_wall
  let idle_time := sampleDelta cur_i prev.prev_cpu_idle
  if wall_time = 0 ∨ wall_time < idle_time then (0, 0, ⟨cur_w, cur_i⟩)
  else
    let cpu_load := (100 * (wall_time - idle_time)) % U32 / wall_time
    ((if cpu_load > thU then 1 else 0), (if cpu_load < thD then 1 else 0),
     ⟨cur_w, cur_i⟩)

/-- The loop body of `calculate_loaded_cpus` for one CPU of the online
mask: accumulate the increments and store the updated record. -/
def calcStep (thU thD : Nat) (cur_wall cur_idle : Cpu → Nat)
    (st : Nat × Nat × (Cpu → CpInfo)) (c : Cpu) : Nat × Nat × (Cpu → CpInfo) :=
  let r := sampleCpu thU thD (st.2.2 c) (cur_wall c) (cur_idle c)
  (st.1 + r.1, st.2.1 + r.2.1, Function.update st.2.2 c r.2.2)

/-- `calculate_loaded_cpus` of the voting revision: walk the online CPUs,
returning `(*loaded, *unloaded)` and the updated per-CPU records. -/
def calculate_loaded_cpus (thU thD : Nat) (online : Cpu → Bool)
    (cur_wall cur_idle : Cpu → Nat) (info : Cpu → CpInfo) :
    Nat × Nat × (Cpu → CpInfo) :=
  cpus.foldl
    (fun st c => if online c then calcStep thU thD cur_wall cur_idle st c else st)
    (0, 0, info)

/-- Spec-side: the wall-clock delta of unit `c` for this tick. -/
def wallDelta (cur_wall : Cpu → Nat) (info : Cpu → CpInfo) (c : Cpu) : Nat :=
  sampleDelta (cur_wall c) (info c).prev_cpu_wall

/-- Spec-side: the idle delta of unit `c` for this tick. -/
def idleDelta (cur_idle : Cpu → Nat) (info : Cpu → CpInfo) (c : Cpu) : Nat :=
  sampleDelta (cur_idle c) (info c).prev_cpu_idle

/-- Spec-side: a degenerate sample — zero wall delta, or idle delta
exceeding wall delta. -/
def degenerateSample (cur_wall cur_idle : Cpu → Nat) (info : Cpu → CpInfo)
    (c : Cpu) : Bool :=
  decide (wallDelta cur_wall info c = 0) ||
    decide (wallDelta cur_wall info c < idleDelta cur_idle info c)

/-- Spec-side: `load_pct = 100 * (wall_delta - idle_delta) / wall_delta`
(in the driver's 32-bit arithmetic). -/
def loadPct (cur_wall cur_idle : Cpu → Nat) (info : Cpu → CpInfo)
    (c : Cpu) : Nat :=
  (100 * (wallDelta cur_wall info c - idleDelta cur_idle info c)) % U32 /
    wallDelta cur_wall info c

/-- Spec-side: unit counted loaded — online, non-degenerate, and
`load_pct > load_threshold_up`. -/
def loadedPred (thU : Nat) (online : Cpu → Bool)
    (cur_wall cur_idle : Cpu → Nat) (info : Cpu → CpInfo) (c : Cpu) : Bool :=
  online c && !degenerateSample cur_wall cur_idle info c &&
    decide (loadPct cur_wall cur_idle info c > thU)

/-- Spec-side: unit counted unloaded — online, non-degenerate, and
`load_pct < load_threshold_down`. -/
def unloadedPred (thD : Nat) (online : Cpu → Bool)
    (cur_wall cur_idle : Cpu → Nat) (info : Cpu → CpInfo) (c : Cpu) : Bool :=
  online c && !degenerateSample cur_wall cur_idle info c &&
    decide (loadPct cur_wall cur_idle info c < thD)

lemma sampleCpu_info (thU thD : Nat) (prev : CpInfo) (cur_w cur_i : Nat) :
    (sampleCpu thU thD prev cur_w cur_i).2.2 = ⟨cur_w, cur_i⟩ := by
  unfold sampleCpu
  dsimp only
  split <;> rfl

lemma sampleCpu_fst (thU thD : Nat) (cur_wall cur_idle : Cpu → Nat)
    (info : Cpu → CpInfo) (c : Cpu) :
    (sampleCpu thU thD (info c) (cur_wall c) (cur_idle c)).1 =
      if (!degenerateSample cur_wall cur_idle info c &&
          decide (loadPct cur_wall cur_idle info c > thU)) = true
      then 1 else 0 := by
  unfold sampleCpu degenerateSample loadPct wallDelta idleDelta
  by_cases h : sampleDelta (cur_wall c) (info c).prev_cpu_wall = 0 ∨
      sampleDelta (cur_wall c) (info c).prev_cpu_wall <
        sampleDelta (cur_idle c) (info c).prev_cpu_idle
  · rw [if_pos h]
    rcases h with h | h <;> simp [h]
  · rw [if_neg h]
    push_neg at h
    simp [h.1, Nat.not_lt.mpr h.2]

lemma sampleCpu_snd (thU thD : Nat) (cur_wall cur_idle : Cpu → Nat)
    (info : Cpu → CpInfo) (c : Cpu) :
    (sampleCpu thU thD (info c) (cur_wall c) (cur_idle c)).2.1 =
      if (!degenerateSample cur_wall cur_idle info c &&
          decide (loadPct cur_wall cur_idle info c < thD)) = true
      then 1 else 0 := by
  unfold sampleCpu degenerateSample loadPct wallDelta idleDelta
  by_cases h : sampleDelta (cur_wall c) (info c).prev_cpu_wall = 0 ∨
      sampleDelta (cur_wall c) (info c).prev_cpu_wall <
        sampleDelta (cur_idle c) (info c).prev_cpu_idle
  · rw [if_pos h]
    rcases h with h | h <;> simp [h]
  · rw [if_neg h]
    push_neg at h
    simp [h.1, Nat.not_lt.mpr h.2]

end ClusterPlug

namespace ClusterPlug

lemma calc_fold_char (thU thD : Nat) (online : Cpu → Bool)
    (cur_wall cur_idle : Cpu → Nat) (info : Cpu → CpInfo) :
    ∀ (l : List Cpu), l.Nodup →
      ∀ acc : Nat × Nat × (Cpu → CpInfo),
        (∀ c ∈ l, acc.2.2 c = info c) →
        (List.foldl
            (fun st c =>
              if online c then calcStep thU thD cur_wall cur_idle st c else st)
            acc l).1 =
          acc.1 + (l.filter (loadedPred thU online cur_wall cur_idle info)).length ∧
        (List.foldl
            (fun st c =>
              if online c then calcStep thU thD cur_wall cur_idle st c else st)
            acc l).2.1 =
          acc.2.1 + (l.filter (unloadedPred thD online cur_wall cur_idle info)).length ∧
        (∀ c, (List.foldl
            (fun st c =>
              if online c then calcStep thU thD cur_wall cur_idle st c else st)
            acc l).2.2 c =
          if c ∈ l ∧ online c = true then ⟨cur_wall c, cur_idle c⟩
          else acc.2.2 c) := by
  intro l
  induction l with
  | nil =>
    intro _ acc _
    simp
  | cons d rest ih =>
    intro hnd acc hacc
    obtain ⟨hdrest, hndrest⟩ := List.nodup_cons.mp hnd
    have hd : acc.2.2 d = info d := hacc d (List.mem_cons_self _ _)
    by_cases ho : online d = true
    · have hstep :
          calcStep thU thD cur_wall cur_idle acc d =
          (acc.1 +
            (if (!degenerateSample cur_wall cur_idle info d &&
                decide (loadPct cur_wall cur_idle info d > thU)) = true
              then 1 else 0),
           acc.2.1 +
            (if (!degenerateSample cur_wall cur_idle info d &&
                decide (loadPct cur_wall cur_idle info d < thD)) = true
              then 1 else 0),
           Function.update acc.2.2 d ⟨cur_wall d, cur_idle d⟩) := by
        simp only [calcStep, hd,
          sampleCpu_fst thU thD cur_wall cur_idle info d,
          sampleCpu_snd thU thD cur_wall cur_idle info d,
          sampleCpu_info]
      rw [List.foldl_cons, if_pos ho, hstep]
      have hacc' : ∀ c ∈ rest,
          (Function.update acc.2.2 d ⟨cur_wall d, cur_idle d⟩) c = info c := by
        intro c hc
        have hne : c ≠ d := fun he => hdrest (he ▸ hc)
        rw [Function.update_noteq hne]
        exact hacc c (List.mem_cons_of_mem _ hc)
      obtain ⟨ih1, ih2, ih3⟩ := ih hndrest
        (acc.1 +
          (if (!degenerateSample cur_wall cur_idle info d &&
              decide (loadPct cur_wall cur_idle info d > thU)) = true
            then 1 else 0),
         acc.2.1 +
          (if (!degenerateSample cur_wall cur_idle info d &&
              decide (loadPct cur_wall cur_idle info d < thD)) = true
            then 1 else 0),
         Function.update acc.2.2 d ⟨cur_wall d, cur_idle d⟩) hacc'
      refine ⟨?_, ?_, ?_⟩
      · rw [ih1]
        simp only [List.filter_cons, loadedPred, ho, Bool.true_and]
        by_cases hp : (!degenerateSample cur_wall cur_idle info d &&
            decide (loadPct cur_wall cur_idle info d > thU)) = true
        · simp [hp]
          omega
        · simp [eq_false_of_ne_true hp]
      · rw [ih2]
        simp only [List.filter_cons, unloadedPred, ho, Bool.true_and]
        by_cases hp : (!degenerateSample cur_wall cur_idle info d &&
            decide (loadPct cur_wall cur_idle info d < thD)) = true
        · simp [hp]
          omega
        · simp [eq_false_of_ne_true hp]
      · intro c
        rw [ih3 c]
        by_cases hc : c ∈ rest ∧ online c = true
        · simp [hc, List.mem_cons_of_mem d hc.1, hc.2]
        · simp only [if_neg hc]
          by_cases hcd : c = d
          · rw [hcd, Function.update_same,
              if_pos (⟨List.mem_cons_self d rest, ho⟩ :
                d ∈ d :: rest ∧ online d = true)]
          · rw [Function.update_noteq hcd]
            have : ¬ (c ∈ d :: rest ∧ online c = true) := by
              intro hx
              exact hc ⟨(List.mem_cons.mp hx.1).resolve_left hcd, hx.2⟩
            rw [if_neg this]
    · have ho' : online d = false := eq_false_of_ne_true ho
      rw [List.foldl_cons, if_neg ho]
      have hacc' : ∀ c ∈ rest, acc.2.2 c = info c :=
        fun c hc => hacc c (List.mem_cons_of_mem _ hc)
      obtain ⟨ih1, ih2, ih3⟩ := ih hndrest acc hacc'
      refine ⟨?_, ?_, ?_⟩
      · rw [ih1]
        simp [List.filter_cons, loadedPred, ho']
      · rw [ih2]
        simp [List.filter_cons, unloadedPred, ho']
      · intro c
        rw [ih3 c]
        by_cases hc : c ∈ rest ∧ online c = true
        · simp [hc, List.mem_cons_of_mem d hc.1, hc.2]
        · rw [if_neg hc]
          have : ¬ (c ∈ d :: rest ∧ online c = true) := by
            intro hx
            rcases List.mem_cons.mp hx.1 with he | he
            · subst he
              exact (Bool.false_ne_true (ho' ▸ hx.2))
            · exact hc ⟨he, hx.2⟩
          rw [if_neg this]

end ClusterPlug

namespace ClusterPlug

/-- Claim C7: `calculate_loaded_cpus` updates the stored previous counters
of every online unit unconditionally (offline records untouched), and its
counts are exactly the number of online units that are non-degenerate
(`wall_delta` nonzero and `idle_delta <= wall_delta`) with
`load_pct > load_threshold_up` (loaded) resp. `load_pct <
load_threshold_down` (unloaded) — degenerate samples are silently
excluded from both counts. -/
theorem C7_sampler_classification (thU thD : Nat) (online : Cpu → Bool)
    (cur_wall cur_idle : Cpu → Nat) (info : Cpu → CpInfo) :
    (calculate_loaded_cpus thU thD online cur_wall cur_idle info).1 =
      (cpus.filter (loadedPred thU online cur_wall cur_idle info)).length ∧
    (calculate_loaded_cpus thU thD online cur_wall cur_idle info).2.1 =
      (cpus.filter (unloadedPred thD online cur_wall cur_idle info)).length ∧
    (∀ c, online c = true →
      (calculate_loaded_cpus thU thD online cur_wall cur_idle info).2.2 c =
        ⟨cur_wall c, cur_idle c⟩) ∧
    (∀ c, online c = false →
      (calculate_loaded_cpus thU thD online cur_wall cur_idle info).2.2 c =
        info c) := by
  obtain ⟨h1, h2, h3⟩ := calc_fold_char thU thD online cur_wall cur_idle info
    cpus (List.nodup_finRange 8) (0, 0, info) (fun c _ => rfl)
  refine ⟨by simpa [calculate_loaded_cpus] using h1,
    by simpa [calculate_loaded_cpus] using h2, ?_, ?_⟩
  · intro c hc
    unfold calculate_loaded_cpus
    rw [h3 c, if_pos (⟨mem_cpus c, hc⟩ : c ∈ cpus ∧ online c = true)]
  · intro c hc
    unfold calculate_loaded_cpus
    rw [h3 c, if_neg (fun hx => Bool.false_ne_true (hc ▸ hx.2))]

/-- Concrete instance of `C7_sampler_classification`: CPUs 0 and 1 online,
wall counters advance by 100 with idle 5 resp. 80; the online record is
rewritten, the offline record kept. -/
theorem C7_witness :
    (calculate_loaded_cpus 80 35 (fun c => decide (c.val < 2)) (fun _ => 100)
        (fun c => if c.val = 0 then 5 else 80) (fun _ => ⟨0, 0⟩)).2.2 0 =
      ⟨100, 5⟩ ∧
    (calculate_loaded_cpus 80 35 (fun c => decide (c.val < 2)) (fun _ => 100)
        (fun c => if c.val = 0 then 5 else 80) (fun _ => ⟨0, 0⟩)).2.2 7 =
      ⟨0, 0⟩ :=
  ⟨(C7_sampler_classification 80 35 (fun c => decide (c.val < 2)) (fun _ => 100)
      (fun c => if c.val = 0 then 5 else 80) (fun _ => ⟨0, 0⟩)).2.2.1 0
      (by decide),
   (C7_sampler_classification 80 35 (fun c => decide (c.val < 2)) (fun _ => 100)
      (fun c => if c.val = 0 then 5 else 80) (fun _ => ⟨0, 0⟩)).2.2.2 7
      (by decide)⟩

end ClusterPlug

namespace ClusterPlug

/-- Controller state read or written by the tunable store callbacks of
the voting revision. -/
structure CtrlState where
  cluster_plug_active : Bool
  low_power_mode : Bool
  vote_up : Nat
  vote_down : Nat
  little_plugged : Bool
deriving DecidableEq, Repr

/-- Side effects a store callback can perform, in order: cancelling the
delayed work, flushing the workqueue, calling `plug_clusters`, and
queueing the work after a delay in ms. -/
inductive Action where
  | cancel_work : Action
  | flush_wq : Action
  | plug : Bool → Bool → Action
  | queue : Nat → Action
deriving DecidableEq, Repr

/-- The `EINVAL` errno. -/
def EINVAL : Int := 22

/-- `active_store`: `kstrtoint` (an external kernel routine, abstracted
as the `Option Int` it produces) failing returns `-EINVAL`; an unchanged
boolean value returns 0 with no side effect; otherwise the flag is
flipped, pending work is cancelled and flushed, and on activation both
clusters are plugged and a tick is queued after 10 ms. -/
def active_store (parsed : Option Int) (s : CtrlState) :
    Int × CtrlState × List Action :=
  match parsed with
  | none => (-EINVAL, s, [])
  | some v =>
    let active := decide (v ≠ 0)
    if active = s.cluster_plug_active then (0, s, [])
    else
      let s' := { s with cluster_plug_active := active }
      if active then
        (0, s', [.cancel_work, .flush_wq, .plug true true, .queue 10])
      else (0, s', [.cancel_work, .flush_wq])

/-- `low_power_mode_store`: parse failure returns `-EINVAL`; an unchanged
value returns 0 with no side effect; otherwise the flag is flipped, work
is cancelled and flushed, `plug_clusters(!low_power_mode,
low_power_mode)` runs, and a tick is queued after 10 ms unless entering
low-power mode. -/
def low_power_mode_store (parsed : Option Int) (s : CtrlState) :
    Int × CtrlState × List Action :=
  match parsed with
  | none => (-EINVAL, s, [])
  | some v =>
    let lpm := decide (v ≠ 0)
    if s.low_power_mode = lpm then (0, s, [])
    else
      let s' := { s with low_power_mode := lpm }
      (0, s', [.cancel_work, .flush_wq, .plug (!lpm) lpm] ++
        (if lpm then [] else [.queue 10]))

/-- Claim C10: the store callbacks mutate nothing on a failed parse
(returning `-EINVAL`) and perform no cancel/flush/plug/queue action on a
write whose parsed boolean equals the stored value (returning 0). -/
theorem C10_store_guards (s : CtrlState) (v : Int) :
    active_store none s = (-EINVAL, s, []) ∧
    low_power_mode_store none s = (-EINVAL, s, []) ∧
    (decide (v ≠ 0) = s.cluster_plug_active →
      active_store (some v) s = (0, s, [])) ∧
    (s.low_power_mode = decide (v ≠ 0) →
      low_power_mode_store (some v) s = (0, s, [])) := by
  refine ⟨rfl, rfl, ?_, ?_⟩
  · intro h
    simp [active_store, h]
  · intro h
    simp [low_power_mode_store, h]

/-- Concrete instance of `C10_store_guards`: an active controller
rejects a failed parse unchanged, and same-value writes of `active = 1`
and `low_power_mode = 0` are no-ops. -/
theorem C10_witness :
    active_store none ⟨true, false, 0, 0, false⟩ =
      (-EINVAL, ⟨true, false, 0, 0, false⟩, []) ∧
    active_store (some 1) ⟨true, false, 0, 0, false⟩ =
      (0, ⟨true, false, 0, 0, false⟩, []) ∧
    low_power_mode_store (some 0) ⟨true, false, 0, 0, false⟩ =
      (0, ⟨true, false, 0, 0, false⟩, []) :=
  ⟨(C10_store_guards ⟨true, false, 0, 0, false⟩ 1).1,
   (C10_store_guards ⟨true, false, 0, 0, false⟩ 1).2.2.1 (by decide),
   (C10_store_guards ⟨true, false, 0, 0, false⟩ 0).2.2.2 (by decide)⟩

end ClusterPlug
